/-
Verification development for the r-row 2D game engine (TypeScript).

This file gives a shallow embedding of the engine's input state machines
(Keyboard, Mouse, Touch), the game-loop scheduler (GameLoop), and the
Clickable / InputField UI layer, and proves (or refutes) the specified
properties about them.

Modelling conventions:
* A JavaScript `Map` is embedded as an association list `List (κ × ν)`:
  `Map.get` returns the value of the (unique) matching entry, `Map.set`
  replaces the value in place (preserving insertion position) or appends a
  fresh entry, and `forEach` iterates entries in insertion (list) order.
* JavaScript `String.prototype.includes` is embedded as substring search
  on character lists (`jsIncludes`).
* The TypeScript enums are embedded as inductive types together with a
  `val` function giving the enum's string (or numeric) value, since the
  source compares enum members and raw strings with `===`, which for these
  enums is value equality.
* JS numbers (timestamps, delta times) are embedded as rationals `ℚ`.
* Function references produced by `.bind(this)` are embedded as natural
  numbers drawn from a freshness counter: each `.bind` call yields a
  reference distinct from every previously created one, which is exactly
  the reference-identity behaviour of JavaScript `Function.prototype.bind`.
-/
import Mathlib

namespace RRow

/-! ## JavaScript string / Map primitives -/

/-- Prefix test on character lists (used to implement `String.includes`). -/
def charsPre : List Char → List Char → Bool
  | [], _ => true
  | _ :: _, [] => false
  | a :: as, b :: bs => a == b && charsPre as bs

/-- Substring occurrence test on character lists. -/
def charsContains (needle : List Char) : List Char → Bool
  | [] => charsPre needle []
  | c :: rest => charsPre needle (c :: rest) || charsContains needle rest

/-- JavaScript `s.includes(sub)`. -/
def jsIncludes (s sub : String) : Bool :=
  charsContains sub.data s.data

/-- JavaScript `Map.prototype.get` on an association list (unique keys):
returns the value of the first entry with the given key, `undefined`
(`none`) otherwise. -/
def mapGet {κ ν : Type} [DecidableEq κ] (l : List (κ × ν)) (k : κ) : Option ν :=
  match l with
  | [] => none
  | e :: rest => if e.1 = k then some e.2 else mapGet rest k

/-- JavaScript `Map.prototype.has`. -/
def mapHas {κ ν : Type} [DecidableEq κ] (l : List (κ × ν)) (k : κ) : Bool :=
  (mapGet l k).isSome

/-- JavaScript `Map.prototype.set`: update the entry in place if the key is
present (keeping its insertion position), append a fresh entry otherwise. -/
def mapSet {κ ν : Type} [DecidableEq κ] (l : List (κ × ν)) (k : κ) (v : ν) :
    List (κ × ν) :=
  match l with
  | [] => [(k, v)]
  | e :: rest => if e.1 = k then (k, v) :: rest else e :: mapSet rest k v

/-! ## enums/KeyState.ts -/

/-- `enum KeyState { Up = 'up', Down = 'down', JustUp = 'just_up',
JustDown = 'just_down' }` (src/unnamed/part_011). -/
inductive KeyState
  | Up
  | Down
  | JustUp
  | JustDown
deriving DecidableEq

/-- The string value of a `KeyState` enum member. -/
def KeyState.val : KeyState → String
  | .Up => "up"
  | .Down => "down"
  | .JustUp => "just_up"
  | .JustDown => "just_down"

/-- A raw physical edge recorded in a device's `_tempState` buffer:
the source stores the literal strings `'up'` and `'down'`. -/
inductive RawEdge
  | up
  | down
deriving DecidableEq

/-- The string stored in the raw buffer. -/
def RawEdge.val : RawEdge → String
  | .up => "up"
  | .down => "down"

/-- The TypeScript cast `state as KeyState` applied to a raw-edge string:
`'up'` and `'down'` are exactly the values of `KeyState.Up` / `KeyState.Down`. -/
def RawEdge.asKeyState : RawEdge → KeyState
  | .up => .Up
  | .down => .Down

/-! ## inputs/Keyboard.ts (src/unnamed/part_001) -/

/-- The mutable state of the `Keyboard` singleton: the raw edge buffer
`_tempState : Map<string, 'up' | 'down'>` and the per-key state map
`_state : Map<string, KeyState>`. -/
structure Keyboard where
  tempState : List (String × RawEdge)
  state : List (String × KeyState)
deriving DecidableEq

/-- The `Keyboard` constructor initializes both maps empty. -/
def Keyboard.construct : Keyboard := ⟨[], []⟩

/-- `Keyboard._onKeyDown`: record the `'down'` edge and, if the key has
never been seen, seed the state map with `KeyState.Up`. -/
def Keyboard.onKeyDown (kb : Keyboard) (code : String) : Keyboard :=
  { kb with
    tempState := mapSet kb.tempState code RawEdge.down
    state := if !(mapHas kb.state code)
             then mapSet kb.state code KeyState.Up
             else kb.state }

/-- `Keyboard._onKeyUp`: record the `'up'` edge. -/
def Keyboard.onKeyUp (kb : Keyboard) (code : String) : Keyboard :=
  { kb with tempState := mapSet kb.tempState code RawEdge.up }

/-- One iteration of the `forEach` body in `Keyboard._update`. Note that in
the source `oldState` is an alias of `this._state` (no copy is made), so the
reads go to the same map being mutated; the fold threads that single map. -/
def Keyboard.updateStep (st : List (String × KeyState)) (e : String × RawEdge) :
    List (String × KeyState) :=
  if ((mapGet st e.1).map (fun s => jsIncludes s.val "up")).getD false
      && (e.2.val == KeyState.Down.val) then
    mapSet st e.1 KeyState.JustDown
  else if ((mapGet st e.1).map (fun s => jsIncludes s.val "down")).getD false
      && (e.2.val == KeyState.Up.val) then
    mapSet st e.1 KeyState.JustUp
  else
    mapSet st e.1 e.2.asKeyState

/-- `Keyboard._update` (the per-frame reconciliation): iterate over the raw
edge buffer `_tempState` and fold each entry into `_state`. The elapsed-time
argument is unused by the edge logic. -/
def Keyboard.update (kb : Keyboard) : Keyboard :=
  { kb with state := kb.tempState.foldl Keyboard.updateStep kb.state }

/-- `Keyboard.isDown`: `this._state.get(key)?.includes('down') ?? false`. -/
def Keyboard.isDown (kb : Keyboard) (key : String) : Bool :=
  ((mapGet kb.state key).map (fun s => jsIncludes s.val "down")).getD false

/-- `Keyboard.isUp`: `this._state.get(key)?.includes('up') ?? true`. -/
def Keyboard.isUp (kb : Keyboard) (key : String) : Bool :=
  ((mapGet kb.state key).map (fun s => jsIncludes s.val "up")).getD true

/-- `Keyboard.isJustDown`: `this._state.get(key) === KeyState.JustDown`. -/
def Keyboard.isJustDown (kb : Keyboard) (key : String) : Bool :=
  mapGet kb.state key == some KeyState.JustDown

/-- `Keyboard.isJustUp`: `this._state.get(key) === KeyState.JustUp`. -/
def Keyboard.isJustUp (kb : Keyboard) (key : String) : Bool :=
  mapGet kb.state key == some KeyState.JustUp

/-- The browser-event / frame history of a `Keyboard` session. -/
inductive KbEvent
  | keyDown (code : String)
  | keyUp (code : String)
  | frame
deriving DecidableEq

/-- The key a keyboard event carries (`none` for a frame tick). -/
def KbEvent.code? : KbEvent → Option String
  | .keyDown c => some c
  | .keyUp c => some c
  | .frame => none

/-- Apply one event to the keyboard state. -/
def Keyboard.applyEvent (kb : Keyboard) : KbEvent → Keyboard
  | .keyDown c => kb.onKeyDown c
  | .keyUp c => kb.onKeyUp c
  | .frame => kb.update

/-- Replay a session from the constructor state. -/
def Keyboard.replay (evs : List KbEvent) : Keyboard :=
  evs.foldl Keyboard.applyEvent Keyboard.construct

/-! ## enums/MouseButton.ts and inputs/Mouse.ts (src/unnamed/part_012, part_000) -/

/-- `enum MouseButton { Left = 0, Middle = 1, Right = 2, Previous = 3,
Next = 4 }`. -/
inductive MouseButton
  | left
  | middle
  | right
  | previous
  | next
deriving DecidableEq

/-- The mutable state of the `Mouse` singleton (the cursor position is kept
separately and does not interact with the button state machine). -/
structure Mouse where
  tempState : List (MouseButton × RawEdge)
  state : List (MouseButton × KeyState)
deriving DecidableEq

/-- The `Mouse` constructor initializes both maps empty. -/
def Mouse.construct : Mouse := ⟨[], []⟩

/-- `Mouse._onMouseDown`: record the `'down'` edge and seed the state map
with `KeyState.Up` for a never-seen button. -/
def Mouse.onMouseDown (m : Mouse) (button : MouseButton) : Mouse :=
  { m with
    tempState := mapSet m.tempState button RawEdge.down
    state := if !(mapHas m.state button)
             then mapSet m.state button KeyState.Up
             else m.state }

/-- `Mouse._onMouseUp`: record the `'up'` edge. -/
def Mouse.onMouseUp (m : Mouse) (button : MouseButton) : Mouse :=
  { m with tempState := mapSet m.tempState button RawEdge.up }

/-- The first line of the `forEach` body in `Mouse._update`:
`if (!oldState.has(key)) oldState.set(key, KeyState.Up)`. -/
def Mouse.seedStep (st : List (MouseButton × KeyState)) (k : MouseButton) :
    List (MouseButton × KeyState) :=
  if !(mapHas st k) then mapSet st k KeyState.Up else st

/-- The remaining lines of the `forEach` body in `Mouse._update`, acting on
the (possibly seeded) map. The entry value `e.2` is a `KeyState` — the
source iterates over `this._state` itself, NOT over `_tempState` — so the
comparisons `state === KeyState.Down` / `KeyState.Up` compare its enum
string with `'down'` / `'up'`. -/
def Mouse.edgeStep (st : List (MouseButton × KeyState))
    (e : MouseButton × KeyState) : List (MouseButton × KeyState) :=
  if ((mapGet st e.1).map (fun s => jsIncludes s.val "up")).getD false
      && (e.2.val == KeyState.Down.val) then
    mapSet st e.1 KeyState.JustDown
  else if ((mapGet st e.1).map (fun s => jsIncludes s.val "down")).getD false
      && (e.2.val == KeyState.Up.val) then
    mapSet st e.1 KeyState.JustUp
  else
    mapSet st e.1 e.2

/-- One iteration of the `forEach` body in `Mouse._update` (`oldState` is
an alias of `this._state` in the source, so the single threaded map plays
both roles). -/
def Mouse.updateStep (st : List (MouseButton × KeyState))
    (e : MouseButton × KeyState) : List (MouseButton × KeyState) :=
  Mouse.edgeStep (Mouse.seedStep st e.1) e

/-- `Mouse._update`: `this._state.forEach(...)` — the fold runs over the
entries of the state map, not the raw buffer. -/
def Mouse.update (m : Mouse) : Mouse :=
  { m with state := m.state.foldl Mouse.updateStep m.state }

/-- `Mouse.isDown`: `this._state.get(button)?.includes('down') ?? false`. -/
def Mouse.isDown (m : Mouse) (button : MouseButton) : Bool :=
  ((mapGet m.state button).map (fun s => jsIncludes s.val "down")).getD false

/-- `Mouse.isUp`: `this._state.get(button)?.includes('up') ?? true`. -/
def Mouse.isUp (m : Mouse) (button : MouseButton) : Bool :=
  ((mapGet m.state button).map (fun s => jsIncludes s.val "up")).getD true

/-- `Mouse.isJustDown`: `this._state.get(button) === KeyState.JustDown`. -/
def Mouse.isJustDown (m : Mouse) (button : MouseButton) : Bool :=
  mapGet m.state button == some KeyState.JustDown

/-- `Mouse.isJustUp`: `this._state.get(button) === KeyState.JustUp`. -/
def Mouse.isJustUp (m : Mouse) (button : MouseButton) : Bool :=
  mapGet m.state button == some KeyState.JustUp

/-- The browser-event / frame history of a `Mouse` session. -/
inductive MsEvent
  | mouseDown (button : MouseButton)
  | mouseUp (button : MouseButton)
  | frame
deriving DecidableEq

/-- The button a mouse event carries (`none` for a frame tick). -/
def MsEvent.button? : MsEvent → Option MouseButton
  | .mouseDown b => some b
  | .mouseUp b => some b
  | .frame => none

/-- Apply one event to the mouse state. -/
def Mouse.applyEvent (m : Mouse) : MsEvent → Mouse
  | .mouseDown b => m.onMouseDown b
  | .mouseUp b => m.onMouseUp b
  | .frame => m.update

/-- Replay a session from the constructor state. -/
def Mouse.replay (evs : List MsEvent) : Mouse :=
  evs.foldl Mouse.applyEvent Mouse.construct

/-! ## enums/TouchState.ts and inputs/Touch.ts -/

/-- `enum TouchState { Started = 'started', Moved = 'moved',
Ended = 'ended', Cancelled = 'cancelled' }` (src/unnamed/part_009). -/
inductive TouchState
  | Started
  | Moved
  | Ended
  | Cancelled
deriving DecidableEq

/-- The canvas geometry the touch handlers read from the `GameCanvas`
collaborator: screen position, logical base size and scale factor. -/
structure CanvasGeom where
  posX : ℚ
  posY : ℚ
  baseX : ℚ
  baseY : ℚ
  scale : ℚ

/-- The mutable state of the `Touch` singleton. `isTouchScreen` embeds the
host-capability check `'ontouchstart' in window || navigator.maxTouchPoints
> 0`, a property of the environment that is constant during a session. -/
structure Touch where
  posX : ℚ
  posY : ℚ
  state : Option TouchState
  tempState : Option TouchState
  oldState : Option TouchState
  clickTimer : ℚ
  clickDelay : ℚ
  isDown : Bool
  isUp : Bool
  isClicked : Bool
  isTouchScreen : Bool

/-- The `Touch` constructor: position `(0,0)`, `clickTimer = 0`,
`clickDelay = 0.3`, `isDown = false`, `isUp = true`, `isClicked = false`;
the three state fields start `undefined`. -/
def Touch.construct (touchCapable : Bool) : Touch :=
  { posX := 0, posY := 0, state := none, tempState := none, oldState := none
    clickTimer := 0, clickDelay := 3 / 10
    isDown := false, isUp := true, isClicked := false
    isTouchScreen := touchCapable }

/-- `Touch._updatePositionFromTouchEvent`: transform page coordinates into
canvas-local scale-corrected coordinates, clamped to `[0, baseSize]`. -/
def Touch.updatePositionFromTouchEvent (t : Touch) (g : CanvasGeom)
    (pageX pageY : ℚ) : Touch :=
  let x := (pageX - g.posX) / g.scale
  let x := if x < 0 then 0 else if x > g.baseX then g.baseX else x
  let y := (pageY - g.posY) / g.scale
  let y := if y < 0 then 0 else if y > g.baseY then g.baseY else y
  { t with posX := x, posY := y }

/-- `Touch._onTouchStart`. -/
def Touch.onTouchStart (t : Touch) (g : CanvasGeom) (pageX pageY : ℚ) : Touch :=
  let t := { t with tempState := some TouchState.Started }
  let t := t.updatePositionFromTouchEvent g pageX pageY
  { t with isDown := true, isUp := false }

/-- `Touch._onTouchEnd`. -/
def Touch.onTouchEnd (t : Touch) : Touch :=
  { t with tempState := some TouchState.Ended, isDown := false, isUp := true }

/-- `Touch._onTouchMove`. -/
def Touch.onTouchMove (t : Touch) (g : CanvasGeom) (pageX pageY : ℚ) : Touch :=
  let t := { t with tempState := some TouchState.Moved }
  let t := t.updatePositionFromTouchEvent g pageX pageY
  { t with isDown := true, isUp := false }

/-- `Touch._onTouchCancel`. -/
def Touch.onTouchCancel (t : Touch) : Touch :=
  { t with tempState := some TouchState.Cancelled, isDown := false, isUp := true }

/-- `Touch._update` (per-frame reconciliation with elapsed time `dt`):
skip on non-touch devices; reset `isClicked`, accumulate `clickTimer`;
reset the timer when two consecutive frames both observe `Started`; then
commit `Ended`, or clear a settled contact, or (new edge, not `Ended`)
flag a click when within the delay and commit `Ended`; finally snapshot
`oldState`. -/
def Touch.update (t : Touch) (dt : ℚ) : Touch :=
  if !t.isTouchScreen then t
  else
    let t := { t with isClicked := false, clickTimer := t.clickTimer + dt }
    let t := if t.tempState = some TouchState.Started
                ∧ t.oldState = some TouchState.Started
             then { t with clickTimer := 0 } else t
    let t :=
      if t.tempState = some TouchState.Ended then
        { t with state := t.tempState }
      else if t.state = t.tempState then
        { t with state := none, tempState := none }
      else
        let t := if t.clickTimer ≤ t.clickDelay
                 then { t with isClicked := true } else t
        { t with state := some TouchState.Ended }
    { t with oldState := t.state }

/-! ## GameLoop.ts (two-phase variant, src/src/GameLoop.ts)

Update subscribers are function references; `.bind(this)` allocates a fresh
reference on every call, so references are modelled as naturals issued by a
freshness counter. -/

/-- The observable actions performed by one run of `GameLoop._loop`
(the two-phase variant has no pre/post-render subscriber lists). -/
inductive LoopEvent
  | updateSub (ref : ℕ)
  | sceneUpdate
  | clearScreen
  | sceneDraw
deriving DecidableEq

/-- `GameLoop.subscribeToUpdate`: `this._updateSubscribers.push(subscriber)`. -/
def GameLoop.subscribeToUpdate (subs : List ℕ) (subscriber : ℕ) : List ℕ :=
  subs ++ [subscriber]

/-- JavaScript `Array.prototype.indexOf`: index of the first element equal
(by `===`, i.e. reference identity for functions) to the argument, `-1` if
absent. -/
def jsIndexOf {α : Type} [DecidableEq α] (l : List α) (x : α) : Int :=
  match l with
  | [] => -1
  | a :: rest =>
    if a = x then 0
    else if jsIndexOf rest x = -1 then -1 else jsIndexOf rest x + 1

/-- `GameLoop.unsubscribeFromUpdate`: `indexOf` then, if found,
`splice(index, 1)` (remove the single element at that index). -/
def GameLoop.unsubscribeFromUpdate (subs : List ℕ) (subscriber : ℕ) : List ℕ :=
  let index := jsIndexOf subs subscriber
  if index > -1 then subs.take index.toNat ++ subs.drop (index.toNat + 1)
  else subs

/-- The sequence of actions `GameLoop._loop` performs after computing
`deltaTime`: every update subscriber in list (= registration) order, then
`currentScene?.update`, then `gameCanvas.clearScreen()`, then
`currentScene?.draw` (`hasScene` tells whether a scene is active; the
optional-chaining calls are skipped otherwise). -/
def GameLoop.loopTrace (subs : List ℕ) (hasScene : Bool) : List LoopEvent :=
  subs.map LoopEvent.updateSub
    ++ (if hasScene then [LoopEvent.sceneUpdate] else [])
    ++ [LoopEvent.clearScreen]
    ++ (if hasScene then [LoopEvent.sceneDraw] else [])

/-! ## enums/ClickableState.ts and ui/Clickable.ts -/

/-- `enum ClickableState { Clicked = 'clicked', Hovered = 'hovered',
Pressed = 'pressed', Released = 'released', Disabled = 'disabled' }`
(src/unnamed/part_013). -/
inductive ClickableState
  | Clicked
  | Hovered
  | Pressed
  | Released
  | Disabled
deriving DecidableEq

/-- The per-frame input polled by `Clickable.update` from the Mouse and
Touch singletons: `mouse.isJustUp(MouseButton.Left)`, `touch.isClicked`,
`area.isContainsPoint(mouse.position)`, `area.isContainsPoint(touch.position)`,
`mouse.isDown(MouseButton.Left)` and `touch.isDown`. -/
structure ClickPoll where
  mouseJustUpLeft : Bool
  touchIsClicked : Bool
  mouseInArea : Bool
  touchInArea : Bool
  mouseDownLeft : Bool
  touchIsDown : Bool
deriving DecidableEq

/-- `Clickable.update`: no evaluation when disabled; otherwise derive
`isUserClicking` / `isUserHovering` / `isUserPressing` and pick the new
state by the first matching branch. -/
def Clickable.update (s : ClickableState) (p : ClickPoll) : ClickableState :=
  if s = ClickableState.Disabled then s
  else
    let isUserClicking := p.mouseJustUpLeft || p.touchIsClicked
    let isUserHovering := p.mouseInArea || p.touchInArea
    let isUserPressing := p.mouseDownLeft || p.touchIsDown
    if isUserClicking && isUserHovering then ClickableState.Clicked
    else if isUserPressing && isUserHovering then ClickableState.Pressed
    else if isUserHovering then ClickableState.Hovered
    else ClickableState.Released

/-- `Clickable.disable`: unconditionally replace the state with `Disabled`
(or `Released` when called with `false`), from any previous state. -/
def Clickable.disable (_s : ClickableState) (disabled : Bool) : ClickableState :=
  if disabled then ClickableState.Disabled else ClickableState.Released

/-! ## ui/InputField.ts (in src/src/ui/Clickable.ts, second document)

Only the resource bookkeeping the claims are about is modelled: the game
loop's update-subscriber list, the two `document` listeners, and the two
DOM nodes. `bind(this)` freshness: each `.bind` call consumes the counter
and yields a new reference. -/

/-- The shared environment an `InputField` interacts with: the loop's
update-subscriber list, the references registered via
`document.addEventListener`, whether the `<input>` / `<form>` nodes are
attached, and the freshness counter for `.bind` / arrow-function
allocations. -/
structure DomEnv where
  updateSubscribers : List ℕ
  docListeners : List ℕ
  inputAttached : Bool
  formAttached : Bool
  nextRef : ℕ
deriving DecidableEq

/-- The references an `InputField` instance holds: `_onClick` / `_onEnter`
are arrow-function properties allocated once at construction (stable), and
`boundUpdate` is the reference produced by the constructor's
`this._update.bind(this)`. -/
structure InputField where
  onClickRef : ℕ
  onEnterRef : ℕ
  boundUpdate : ℕ
deriving DecidableEq

/-- The `InputField` constructor: attach the form and input nodes,
subscribe `this._update.bind(this)` to the loop, and register the
`_onClick` / `_onEnter` document listeners. -/
def InputField.construct (env : DomEnv) : InputField × DomEnv :=
  let onClickRef := env.nextRef
  let onEnterRef := env.nextRef + 1
  let boundUpdate := env.nextRef + 2
  (⟨onClickRef, onEnterRef, boundUpdate⟩,
   { updateSubscribers :=
       GameLoop.subscribeToUpdate env.updateSubscribers boundUpdate
     docListeners := env.docListeners ++ [onClickRef, onEnterRef]
     inputAttached := true
     formAttached := true
     nextRef := env.nextRef + 3 })

/-- `InputField.destroy`: remove the two document listeners (stable
references, found and removed), remove the input and form nodes, and call
`unsubscribeFromUpdate(this._update.bind(this))` — where `.bind` allocates
a fresh reference. -/
def InputField.destroy (f : InputField) (env : DomEnv) : DomEnv :=
  let env := { env with
    docListeners :=
      (env.docListeners.filter (fun r => r ≠ f.onClickRef)).filter
        (fun r => r ≠ f.onEnterRef)
    inputAttached := false
    formAttached := false }
  let freshBound := env.nextRef
  { env with
    updateSubscribers :=
      GameLoop.unsubscribeFromUpdate env.updateSubscribers freshBound
    nextRef := env.nextRef + 1 }

/-! ## Derived helper definitions used by the proofs -/

/-- The per-key transition performed by one `Keyboard._update` iteration,
as a pure function of the previous state of that key and its raw edge. -/
def kbTrans (prev : Option KeyState) (r : RawEdge) : KeyState :=
  if (prev.map (fun s => jsIncludes s.val "up")).getD false
      && (r.val == KeyState.Down.val) then KeyState.JustDown
  else if (prev.map (fun s => jsIncludes s.val "down")).getD false
      && (r.val == KeyState.Up.val) then KeyState.JustUp
  else r.asKeyState

/-- A key that has never produced an event: absent from the state map and
from the raw edge buffer. -/
def KbUnseen (kb : Keyboard) (k : String) : Prop :=
  mapGet kb.state k = none ∧ ∀ e ∈ kb.tempState, e.1 ≠ k

/-- A mouse button that has never produced an event: absent from the state
map (the mouse reconciliation never reads the raw buffer, so only the state
map matters for its polling). -/
def MsUnseen (m : Mouse) (b : MouseButton) : Prop :=
  mapGet m.state b = none

/-! # Lemmas about the embedded map primitives -/

theorem mapGet_mapSet_self {κ ν : Type} [DecidableEq κ]
    (l : List (κ × ν)) (k : κ) (v : ν) :
    mapGet (mapSet l k v) k = some v := by
  induction l with
  | nil => simp [mapSet, mapGet]
  | cons e rest ih =>
    by_cases h : e.1 = k
    · simp [mapSet, h, mapGet]
    · simp [mapSet, h, mapGet, ih]

theorem mapGet_mapSet_ne {κ ν : Type} [DecidableEq κ]
    (l : List (κ × ν)) (k k' : κ) (v : ν) (h : k' ≠ k) :
    mapGet (mapSet l k v) k' = mapGet l k' := by
  induction l with
  | nil => simp [mapSet, mapGet, Ne.symm h]
  | cons e rest ih =>
    by_cases he : e.1 = k
    · simp [mapSet, he, mapGet, Ne.symm h]
    · simp [mapSet, he, mapGet, ih]

theorem mapGet_eq_none_iff {κ ν : Type} [DecidableEq κ]
    (l : List (κ × ν)) (k : κ) :
    mapGet l k = none ↔ ∀ e ∈ l, e.1 ≠ k := by
  induction l with
  | nil => simp [mapGet]
  | cons e rest ih =>
    by_cases he : e.1 = k
    · simp [mapGet, he]
    · simp [mapGet, he, ih]

theorem mem_mapSet {κ ν : Type} [DecidableEq κ]
    {l : List (κ × ν)} {k : κ} {v : ν} {e : κ × ν} (he : e ∈ mapSet l k v) :
    e ∈ l ∨ e = (k, v) := by
  induction l with
  | nil => simpa [mapSet] using he
  | cons a rest ih =>
    by_cases ha : a.1 = k
    · rcases (by simpa [mapSet, ha] using he) with h | h
      · right; simpa using h
      · left; simp [h]
    · rcases (by simpa [mapSet, ha] using he) with h | h
      · left; simp [h]
      · rcases ih h with h' | h'
        · left; simp [h']
        · right; exact h'

theorem keys_nodup_mapSet {κ ν : Type} [DecidableEq κ]
    {l : List (κ × ν)} (k : κ) (v : ν) (h : (l.map Prod.fst).Nodup) :
    ((mapSet l k v).map Prod.fst).Nodup := by
  induction l with
  | nil => simp [mapSet]
  | cons e rest ih =>
    simp only [List.map_cons, List.nodup_cons] at h
    by_cases he : e.1 = k
    · subst he
      simpa [mapSet, List.nodup_cons] using h
    · rw [show mapSet (e :: rest) k v = e :: mapSet rest k v from by
        simp [mapSet, he]]
      simp only [List.map_cons]
      refine List.nodup_cons.mpr ⟨?_, ih h.2⟩
      intro hmem
      rcases List.mem_map.mp hmem with ⟨x, hx, hx1⟩
      rcases mem_mapSet hx with h' | h'
      · exact h.1 (hx1 ▸ List.mem_map_of_mem Prod.fst h')
      · exact he (by rw [← hx1, h'])

theorem mapSet_mapSet_same {κ ν : Type} [DecidableEq κ]
    (l : List (κ × ν)) (k : κ) (v w : ν) :
    mapSet (mapSet l k v) k w = mapSet l k w := by
  induction l with
  | nil => simp [mapSet]
  | cons e rest ih =>
    by_cases he : e.1 = k
    · simp [mapSet, he]
    · simp [mapSet, he, ih]

theorem mem_mapSet_self {κ ν : Type} [DecidableEq κ]
    (l : List (κ × ν)) (k : κ) (v : ν) :
    (k, v) ∈ mapSet l k v := by
  induction l with
  | nil => simp [mapSet]
  | cons e rest ih =>
    by_cases he : e.1 = k
    · simp [mapSet, he]
    · simp [mapSet, he, ih]

/-- A fold whose step touches only the key of its own entry leaves every
other key's binding unchanged. -/
theorem foldl_mapGet_preserve {κ ν ε : Type} [DecidableEq κ]
    (f : List (κ × ν) → ε → List (κ × ν)) (key : ε → κ)
    (hf : ∀ st e k, key e ≠ k → mapGet (f st e) k = mapGet st k)
    (es : List ε) (st : List (κ × ν)) (k : κ) (hk : ∀ e ∈ es, key e ≠ k) :
    mapGet (es.foldl f st) k = mapGet st k := by
  induction es generalizing st with
  | nil => rfl
  | cons e rest ih =>
    rw [List.foldl_cons,
      ih _ (fun x hx => hk x (List.mem_cons_of_mem _ hx)),
      hf st e k (hk e (List.mem_cons_self _ _))]

/-! # Lemmas about the Keyboard reconciliation -/

/-- One `Keyboard._update` iteration only writes the key of its entry. -/
theorem keyboard_updateStep_get_ne (st : List (String × KeyState))
    (e : String × RawEdge) (k : String) (h : e.1 ≠ k) :
    mapGet (Keyboard.updateStep st e) k = mapGet st k := by
  unfold Keyboard.updateStep
  split_ifs <;> exact mapGet_mapSet_ne _ _ _ _ (Ne.symm h)

/-- One `Keyboard._update` iteration rewrites its own key by the pure
transition `kbTrans`. -/
theorem keyboard_updateStep_get_self (st : List (String × KeyState))
    (k : String) (r : RawEdge) :
    mapGet (Keyboard.updateStep st (k, r)) k = some (kbTrans (mapGet st k) r) := by
  unfold Keyboard.updateStep kbTrans
  split_ifs <;> simp [mapGet_mapSet_self]

/-- Folding `Keyboard._update` over a raw buffer with distinct keys sends a
buffered key to the `kbTrans` image of its pre-reconciliation binding. -/
theorem keyboard_foldl_get_mem (es : List (String × RawEdge))
    (st : List (String × KeyState)) (k : String) (r : RawEdge)
    (hnd : (es.map Prod.fst).Nodup) (hmem : (k, r) ∈ es) :
    mapGet (es.foldl Keyboard.updateStep st) k = some (kbTrans (mapGet st k) r) := by
  induction es generalizing st with
  | nil => cases hmem
  | cons e rest ih =>
    simp only [List.map_cons, List.nodup_cons] at hnd
    rw [List.foldl_cons]
    rcases List.mem_cons.mp hmem with heq | hmem'
    · subst heq
      rw [foldl_mapGet_preserve Keyboard.updateStep Prod.fst
        (fun st e k h => keyboard_updateStep_get_ne st e k h) rest _ k ?_]
      · exact keyboard_updateStep_get_self st k r
      · intro y hy hyk
        have hmm : y.1 ∈ rest.map Prod.fst := List.mem_map_of_mem Prod.fst hy
        rw [hyk] at hmm
        exact hnd.1 hmm
    · have hk : e.1 ≠ k := by
        intro he
        have hmm : (k, r).1 ∈ rest.map Prod.fst :=
          List.mem_map_of_mem Prod.fst hmem'
        exact hnd.1 (by rw [he]; exact hmm)
      rw [ih _ hnd.2 hmem', keyboard_updateStep_get_ne st e k hk]

/-- `KbUnseen` is preserved by every event that does not mention the key. -/
theorem kbUnseen_applyEvent (kb : Keyboard) (k : String) (e : KbEvent)
    (he : e.code? ≠ some k) (h : KbUnseen kb k) :
    KbUnseen (kb.applyEvent e) k := by
  obtain ⟨hstate, htemp⟩ := h
  cases e with
  | keyDown c =>
    have hck : c ≠ k := fun hc => he (by simp [KbEvent.code?, hc])
    refine ⟨?_, ?_⟩
    · simp only [Keyboard.applyEvent, Keyboard.onKeyDown]
      split
      · rw [mapGet_mapSet_ne _ _ _ _ (Ne.symm hck), hstate]
      · exact hstate
    · intro x hx
      rcases mem_mapSet hx with h' | h'
      · exact htemp x h'
      · rw [h']; exact hck
  | keyUp c =>
    have hck : c ≠ k := fun hc => he (by simp [KbEvent.code?, hc])
    refine ⟨hstate, ?_⟩
    intro x hx
    rcases mem_mapSet hx with h' | h'
    · exact htemp x h'
    · rw [h']; exact hck
  | frame =>
    refine ⟨?_, htemp⟩
    simp only [Keyboard.applyEvent, Keyboard.update]
    rw [foldl_mapGet_preserve Keyboard.updateStep Prod.fst
      (fun st e k h => keyboard_updateStep_get_ne st e k h) _ _ k htemp]
    exact hstate

/-- A key mentioned by no event of a session is unseen after replay. -/
theorem kbUnseen_replay (evs : List KbEvent) (k : String)
    (h : ∀ e ∈ evs, e.code? ≠ some k) :
    KbUnseen (Keyboard.replay evs) k := by
  suffices haux : ∀ kb, KbUnseen kb k → KbUnseen (evs.foldl Keyboard.applyEvent kb) k by
    exact haux Keyboard.construct ⟨rfl, by simp [Keyboard.construct]⟩
  induction evs with
  | nil => exact fun kb hkb => hkb
  | cons e rest ih =>
    intro kb hkb
    rw [List.foldl_cons]
    exact ih (fun x hx => h x (List.mem_cons_of_mem _ hx)) _
      (kbUnseen_applyEvent kb k e (h e (List.mem_cons_self _ _)) hkb)

/-! # Lemmas about the Mouse reconciliation -/

/-- Seeding only writes the seeded key. -/
theorem mouse_seedStep_get_ne (st : List (MouseButton × KeyState))
    (k' k : MouseButton) (h : k' ≠ k) :
    mapGet (Mouse.seedStep st k') k = mapGet st k := by
  unfold Mouse.seedStep
  split
  · exact mapGet_mapSet_ne _ _ _ _ (Ne.symm h)
  · rfl

/-- One `Mouse._update` iteration only writes the key of its entry. -/
theorem mouse_updateStep_get_ne (st : List (MouseButton × KeyState))
    (e : MouseButton × KeyState) (k : MouseButton) (h : e.1 ≠ k) :
    mapGet (Mouse.updateStep st e) k = mapGet st k := by
  unfold Mouse.updateStep Mouse.edgeStep
  split_ifs <;>
    rw [mapGet_mapSet_ne _ _ _ _ (Ne.symm h), mouse_seedStep_get_ne st e.1 k h]

/-- `MsUnseen` is preserved by every event that does not mention the button. -/
theorem msUnseen_applyEvent (m : Mouse) (b : MouseButton) (e : MsEvent)
    (he : e.button? ≠ some b) (h : MsUnseen m b) :
    MsUnseen (m.applyEvent e) b := by
  cases e with
  | mouseDown c =>
    have hcb : c ≠ b := fun hc => he (by simp [MsEvent.button?, hc])
    simp only [MsUnseen, Mouse.applyEvent, Mouse.onMouseDown]
    split
    · rw [mapGet_mapSet_ne _ _ _ _ (Ne.symm hcb)]; exact h
    · exact h
  | mouseUp c => exact h
  | frame =>
    simp only [MsUnseen, Mouse.applyEvent, Mouse.update]
    rw [foldl_mapGet_preserve Mouse.updateStep Prod.fst
      (fun st e k hk => mouse_updateStep_get_ne st e k hk) _ _ b
      ((mapGet_eq_none_iff m.state b).mp h)]
    exact h

/-- A button mentioned by no event of a session is unseen after replay. -/
theorem msUnseen_replay (evs : List MsEvent) (b : MouseButton)
    (h : ∀ e ∈ evs, e.button? ≠ some b) :
    MsUnseen (Mouse.replay evs) b := by
  suffices haux : ∀ m, MsUnseen m b → MsUnseen (evs.foldl Mouse.applyEvent m) b by
    exact haux Mouse.construct rfl
  induction evs with
  | nil => exact fun m hm => hm
  | cons e rest ih =>
    intro m hm
    rw [List.foldl_cons]
    exact ih (fun x hx => h x (List.mem_cons_of_mem _ hx)) _
      (msUnseen_applyEvent m b e (h e (List.mem_cons_self _ _)) hm)

/-! # Lemmas about jsIndexOf / unsubscribeFromUpdate -/

theorem jsIndexOf_of_not_mem {α : Type} [DecidableEq α]
    {l : List α} {x : α} (h : x ∉ l) : jsIndexOf l x = -1 := by
  induction l with
  | nil => rfl
  | cons a rest ih =>
    have hax : ¬(a = x) := fun hax => h (hax ▸ List.mem_cons_self _ _)
    have hrest := ih (fun hx => h (List.mem_cons_of_mem _ hx))
    simp [jsIndexOf, hax, hrest]

theorem jsIndexOf_append_cons {α : Type} [DecidableEq α]
    (l1 l2 : List α) (x : α) (h : x ∉ l1) :
    jsIndexOf (l1 ++ x :: l2) x = (l1.length : Int) := by
  induction l1 with
  | nil => simp [jsIndexOf]
  | cons a rest ih =>
    have hax : ¬(a = x) := fun hax => h (hax ▸ List.mem_cons_self _ _)
    have hrest := ih (fun hx => h (List.mem_cons_of_mem _ hx))
    have hne : ((rest.length : Int)) ≠ -1 := by omega
    rw [List.cons_append,
      show jsIndexOf (a :: (rest ++ x :: l2)) x
          = if a = x then 0
            else if jsIndexOf (rest ++ x :: l2) x = -1 then -1
            else jsIndexOf (rest ++ x :: l2) x + 1 from rfl,
      if_neg hax, hrest, if_neg hne, List.length_cons]
    push_cast
    ring

theorem unsubscribe_of_not_mem (subs : List ℕ) (x : ℕ) (h : x ∉ subs) :
    GameLoop.unsubscribeFromUpdate subs x = subs := by
  unfold GameLoop.unsubscribeFromUpdate
  rw [jsIndexOf_of_not_mem h]
  norm_num

theorem drop_append_cons_length {α : Type} (l1 l2 : List α) (x : α) :
    (l1 ++ x :: l2).drop (l1.length + 1) = l2 := by
  induction l1 with
  | nil => simp
  | cons a rest ih => simp [ih]

theorem take_append_cons_length {α : Type} (l1 l2 : List α) (x : α) :
    (l1 ++ x :: l2).take l1.length = l1 := by
  induction l1 with
  | nil => simp
  | cons a rest ih => simp [ih]

theorem unsubscribe_first_occurrence (l1 l2 : List ℕ) (x : ℕ) (h : x ∉ l1) :
    GameLoop.unsubscribeFromUpdate (l1 ++ x :: l2) x = l1 ++ l2 := by
  unfold GameLoop.unsubscribeFromUpdate
  rw [jsIndexOf_append_cons _ _ _ h, if_pos (by omega)]
  rw [show ((l1.length : Int)).toNat = l1.length from by omega]
  rw [take_append_cons_length, drop_append_cons_length]

/-! # The claims -/

/-- C1: the claim says both devices reconcile exactly the identifiers of
their raw edge buffer (up-semantics + raw `"down"` ↦ `JustDown`, etc.).
The Keyboard does (first conjunct: a buffered `"down"` edge on a key whose
previous state is `Up` yields `JustDown`), but the Mouse does not: after
`_onMouseDown` its raw buffer holds `left ↦ "down"` and its state map holds
`left ↦ Up`, yet `Mouse._update` — which iterates over `this._state`
instead of `this._tempState` — leaves the button at `Up`, so the raw edge
is never consumed and `isJustDown` stays false. -/
theorem c1_mouse_update_ignores_raw_buffer :
    (Keyboard.construct.onKeyDown "KeyA").update.isJustDown "KeyA" = true
    ∧ mapGet (Mouse.construct.onMouseDown MouseButton.left).tempState
        MouseButton.left = some RawEdge.down
    ∧ mapGet (Mouse.construct.onMouseDown MouseButton.left).state
        MouseButton.left = some KeyState.Up
    ∧ (Mouse.construct.onMouseDown MouseButton.left).update.isJustDown
        MouseButton.left = false
    ∧ mapGet (Mouse.construct.onMouseDown MouseButton.left).update.state
        MouseButton.left = some KeyState.Up := by
  decide

/-- C2: from a fresh Keyboard, a `"down"` edge on `"KeyA"` (which seeds the
state map with `Up`) followed by one reconciliation yields
`isJustDown("KeyA") = true`; a second reconciliation with no new edge
yields `isDown("KeyA") = true` and `isJustDown("KeyA") = false`. -/
theorem c2_keyboard_justdown_decays_to_down :
    (Keyboard.construct.onKeyDown "KeyA").update.isJustDown "KeyA" = true
    ∧ (Keyboard.construct.onKeyDown "KeyA").update.update.isDown "KeyA" = true
    ∧ (Keyboard.construct.onKeyDown "KeyA").update.update.isJustDown "KeyA"
        = false := by
  decide

/-- C3: the claim says a `touchstart` at t=0 and `touchend` at t=0.1 with
`clickDelay = 0.3` make `isClicked` true on the reconciliation following
the `touchend` and only there, while a held contact never sets it. On the
code the opposite happens: with reconciliations at t=0.05 and t=0.15, the
reconciliation following the `touchstart` (while the contact is still
down, so also during a long hold) already sets `isClicked = true` — the
`tempState = Started ≠ state` case falls into the click branch — and the
reconciliation following the `touchend` takes the `tempState = Ended`
branch, leaving `isClicked = false`. -/
theorem c3_touch_isclicked_fires_after_touchstart_not_touchend :
    (((Touch.construct true).onTouchStart ⟨0, 0, 800, 600, 1⟩ 0 0).update
        (1 / 20)).isClicked = true
    ∧ (((Touch.construct true).onTouchStart ⟨0, 0, 800, 600, 1⟩ 0 0).update
        (1 / 20)).isDown = true
    ∧ ((((Touch.construct true).onTouchStart ⟨0, 0, 800, 600, 1⟩ 0 0).update
        (1 / 20)).onTouchEnd.update (1 / 10)).isClicked = false := by
  have e1 : (Touch.construct true).onTouchStart ⟨0, 0, 800, 600, 1⟩ 0 0
      = { posX := 0, posY := 0, state := none,
          tempState := some TouchState.Started, oldState := none,
          clickTimer := 0, clickDelay := 3 / 10, isDown := true,
          isUp := false, isClicked := false, isTouchScreen := true } := by
    norm_num [Touch.construct, Touch.onTouchStart,
      Touch.updatePositionFromTouchEvent]
  have e2 : Touch.update
      { posX := 0, posY := 0, state := none,
        tempState := some TouchState.Started, oldState := none,
        clickTimer := 0, clickDelay := 3 / 10, isDown := true,
        isUp := false, isClicked := false, isTouchScreen := true } (1 / 20)
      = { posX := 0, posY := 0, state := some TouchState.Ended,
          tempState := some TouchState.Started,
          oldState := some TouchState.Ended,
          clickTimer := 1 / 20, clickDelay := 3 / 10, isDown := true,
          isUp := false, isClicked := true, isTouchScreen := true } := by
    have hle : ((20 : ℚ)⁻¹ ≤ 3 / 10) = True := by norm_num
    norm_num [Touch.update]
    simp [hle]
  have e3 : Touch.update (Touch.onTouchEnd
      { posX := 0, posY := 0, state := some TouchState.Ended,
        tempState := some TouchState.Started,
        oldState := some TouchState.Ended,
        clickTimer := 1 / 20, clickDelay := 3 / 10, isDown := true,
        isUp := false, isClicked := true, isTouchScreen := true }) (1 / 10)
      = { posX := 0, posY := 0, state := some TouchState.Ended,
          tempState := some TouchState.Ended,
          oldState := some TouchState.Ended,
          clickTimer := 1 / 20 + 1 / 10, clickDelay := 3 / 10,
          isDown := false, isUp := true, isClicked := false,
          isTouchScreen := true } := by
    have hle : ((20 : ℚ)⁻¹ ≤ 3 / 10) = True := by norm_num
    norm_num [Touch.onTouchEnd, Touch.update]
    simp [hle]
  refine ⟨?_, ?_, ?_⟩
  · rw [e1, e2]
  · rw [e1, e2]
  · rw [e1, e2, e3]

/-- C10: on any Keyboard and Mouse state and any identifier, `isUp` is the
boolean negation of `isDown` (so exactly one of the two holds), `isJustDown`
implies `isDown`, and `isJustUp` implies `isUp` (the implications written as
boolean disjunctions): the four KeyState strings split into down-semantics
(`'down'`, `'just_down'`) and up-semantics (`'up'`, `'just_up'`), and an
absent identifier defaults to up. -/
theorem c10_updown_partition (kb : Keyboard) (k : String)
    (m : Mouse) (b : MouseButton) :
    kb.isUp k = !kb.isDown k
    ∧ (!(kb.isJustDown k) || kb.isDown k) = true
    ∧ (!(kb.isJustUp k) || kb.isUp k) = true
    ∧ m.isUp b = !m.isDown b
    ∧ (!(m.isJustDown b) || m.isDown b) = true
    ∧ (!(m.isJustUp b) || m.isUp b) = true := by
  have key : ∀ o : Option KeyState,
      (o.map (fun s => jsIncludes s.val "up")).getD true
        = !((o.map (fun s => jsIncludes s.val "down")).getD false)
      ∧ (!(o == some KeyState.JustDown)
          || (o.map (fun s => jsIncludes s.val "down")).getD false) = true
      ∧ (!(o == some KeyState.JustUp)
          || (o.map (fun s => jsIncludes s.val "up")).getD true) = true := by
    intro o
    rcases o with _ | s
    · decide
    · cases s <;> decide
  exact ⟨(key (mapGet kb.state k)).1, (key (mapGet kb.state k)).2.1,
    (key (mapGet kb.state k)).2.2, (key (mapGet m.state b)).1,
    (key (mapGet m.state b)).2.1, (key (mapGet m.state b)).2.2⟩

/-- C5: on any Keyboard whose raw buffer has distinct keys (an invariant of
JavaScript Maps), recording a `"down"` then an `"up"` edge for the same key
between two reconciliations and then reconciling once makes the key read as
up — the surviving state is derived from the last-recorded edge only
(`Up` or `JustUp`) — with no `JustDown` observable for that frame. -/
theorem c5_keyboard_coalesces_to_last_edge (kb : Keyboard) (k : String)
    (hnd : (kb.tempState.map Prod.fst).Nodup) :
    (((kb.onKeyDown k).onKeyUp k).update.isUp k = true
      ∧ ((kb.onKeyDown k).onKeyUp k).update.isDown k = false
      ∧ ((kb.onKeyDown k).onKeyUp k).update.isJustDown k = false)
    ∧ (mapGet ((kb.onKeyDown k).onKeyUp k).update.state k = some KeyState.Up
      ∨ mapGet ((kb.onKeyDown k).onKeyUp k).update.state k
          = some KeyState.JustUp) := by
  have htemp : ((kb.onKeyDown k).onKeyUp k).tempState
      = mapSet kb.tempState k RawEdge.up := by
    simp [Keyboard.onKeyDown, Keyboard.onKeyUp, mapSet_mapSet_same]
  have hget : mapGet ((kb.onKeyDown k).onKeyUp k).update.state k
      = some (kbTrans (mapGet ((kb.onKeyDown k).onKeyUp k).state k) RawEdge.up) := by
    unfold Keyboard.update
    rw [htemp]
    exact keyboard_foldl_get_mem _ _ k RawEdge.up
      (keys_nodup_mapSet k RawEdge.up hnd) (mem_mapSet_self _ _ _)
  rcases hprev : mapGet ((kb.onKeyDown k).onKeyUp k).state k with _ | s
  · rw [hprev] at hget
    unfold Keyboard.isUp Keyboard.isDown Keyboard.isJustDown
    rw [hget]
    exact ⟨⟨rfl, rfl, rfl⟩, Or.inl rfl⟩
  · rw [hprev] at hget
    unfold Keyboard.isUp Keyboard.isDown Keyboard.isJustDown
    rw [hget]
    cases s
    · exact ⟨⟨rfl, rfl, rfl⟩, Or.inl rfl⟩
    · exact ⟨⟨rfl, rfl, rfl⟩, Or.inr rfl⟩
    · exact ⟨⟨rfl, rfl, rfl⟩, Or.inl rfl⟩
    · exact ⟨⟨rfl, rfl, rfl⟩, Or.inr rfl⟩

/-- Witness for C5: the fresh keyboard and key `"KeyA"`. -/
theorem c5_keyboard_coalesces_to_last_edge_witness :
    ((Keyboard.construct.tempState.map Prod.fst).Nodup)
    ∧ ((((Keyboard.construct.onKeyDown "KeyA").onKeyUp "KeyA").update.isUp "KeyA"
          = true
        ∧ ((Keyboard.construct.onKeyDown "KeyA").onKeyUp "KeyA").update.isDown
            "KeyA" = false
        ∧ ((Keyboard.construct.onKeyDown "KeyA").onKeyUp "KeyA").update.isJustDown
            "KeyA" = false)
      ∧ (mapGet ((Keyboard.construct.onKeyDown "KeyA").onKeyUp "KeyA").update.state
            "KeyA" = some KeyState.Up
        ∨ mapGet ((Keyboard.construct.onKeyDown "KeyA").onKeyUp "KeyA").update.state
            "KeyA" = some KeyState.JustUp)) :=
  ⟨by decide, c5_keyboard_coalesces_to_last_edge Keyboard.construct "KeyA" (by decide)⟩

/-- C7: an identifier mentioned by no event of a session polls to the
conservative defaults on both devices: `isUp = true`, `isDown = false`,
`isJustUp = false`, `isJustDown = false` (and, the embedding being total
functions, no exception is possible). -/
theorem c7_unseen_identifiers_poll_default (kevs : List KbEvent) (k : String)
    (mevs : List MsEvent) (b : MouseButton)
    (hk : ∀ e ∈ kevs, KbEvent.code? e ≠ some k)
    (hb : ∀ e ∈ mevs, MsEvent.button? e ≠ some b) :
    (Keyboard.replay kevs).isUp k = true
    ∧ (Keyboard.replay kevs).isDown k = false
    ∧ (Keyboard.replay kevs).isJustUp k = false
    ∧ (Keyboard.replay kevs).isJustDown k = false
    ∧ (Mouse.replay mevs).isUp b = true
    ∧ (Mouse.replay mevs).isDown b = false
    ∧ (Mouse.replay mevs).isJustUp b = false
    ∧ (Mouse.replay mevs).isJustDown b = false := by
  have hkb : mapGet (Keyboard.replay kevs).state k = none :=
    (kbUnseen_replay kevs k hk).1
  have hms : mapGet (Mouse.replay mevs).state b = none :=
    msUnseen_replay mevs b hb
  unfold Keyboard.isUp Keyboard.isDown Keyboard.isJustUp Keyboard.isJustDown
    Mouse.isUp Mouse.isDown Mouse.isJustUp Mouse.isJustDown
  rw [hkb, hms]
  exact ⟨rfl, rfl, rfl, rfl, rfl, rfl, rfl, rfl⟩

/-- Witness for C7: a session that presses and reconciles other
identifiers but never `"KeyA"` / the left button. -/
theorem c7_unseen_identifiers_poll_default_witness :
    (∀ e ∈ [KbEvent.keyDown "KeyB", KbEvent.frame, KbEvent.keyUp "KeyB"],
        KbEvent.code? e ≠ some "KeyA")
    ∧ (∀ e ∈ [MsEvent.mouseDown MouseButton.right, MsEvent.frame],
        MsEvent.button? e ≠ some MouseButton.left)
    ∧ ((Keyboard.replay [KbEvent.keyDown "KeyB", KbEvent.frame,
          KbEvent.keyUp "KeyB"]).isUp "KeyA" = true
      ∧ (Keyboard.replay [KbEvent.keyDown "KeyB", KbEvent.frame,
          KbEvent.keyUp "KeyB"]).isDown "KeyA" = false
      ∧ (Keyboard.replay [KbEvent.keyDown "KeyB", KbEvent.frame,
          KbEvent.keyUp "KeyB"]).isJustUp "KeyA" = false
      ∧ (Keyboard.replay [KbEvent.keyDown "KeyB", KbEvent.frame,
          KbEvent.keyUp "KeyB"]).isJustDown "KeyA" = false
      ∧ (Mouse.replay [MsEvent.mouseDown MouseButton.right,
          MsEvent.frame]).isUp MouseButton.left = true
      ∧ (Mouse.replay [MsEvent.mouseDown MouseButton.right,
          MsEvent.frame]).isDown MouseButton.left = false
      ∧ (Mouse.replay [MsEvent.mouseDown MouseButton.right,
          MsEvent.frame]).isJustUp MouseButton.left = false
      ∧ (Mouse.replay [MsEvent.mouseDown MouseButton.right,
          MsEvent.frame]).isJustDown MouseButton.left = false) :=
  ⟨by decide, by decide,
    c7_unseen_identifiers_poll_default
      [KbEvent.keyDown "KeyB", KbEvent.frame, KbEvent.keyUp "KeyB"] "KeyA"
      [MsEvent.mouseDown MouseButton.right, MsEvent.frame] MouseButton.left
      (by decide) (by decide)⟩


/-- C9: the claim says `InputField.destroy()` removes the update callback
registered by the constructor from the loop's subscriber list. It does
remove the document listeners and DOM nodes, but the subscriber survives:
`destroy` passes `this._update.bind(this)` — a freshly allocated function
reference — to `unsubscribeFromUpdate`, whose `indexOf` cannot find it, so
the originally registered reference is still subscribed. -/
theorem c9_inputfield_destroy_leaks_update_subscriber :
    ((InputField.construct ⟨[], [], false, false, 0⟩).1.boundUpdate
        ∈ (InputField.destroy (InputField.construct ⟨[], [], false, false, 0⟩).1
            (InputField.construct ⟨[], [], false, false, 0⟩).2).updateSubscribers)
    ∧ (InputField.destroy (InputField.construct ⟨[], [], false, false, 0⟩).1
        (InputField.construct ⟨[], [], false, false, 0⟩).2).docListeners = []
    ∧ (InputField.destroy (InputField.construct ⟨[], [], false, false, 0⟩).1
        (InputField.construct ⟨[], [], false, false, 0⟩).2).inputAttached = false
    ∧ (InputField.destroy (InputField.construct ⟨[], [], false, false, 0⟩).1
        (InputField.construct ⟨[], [], false, false, 0⟩).2).formAttached
        = false := by
  decide

/-- C6: on a non-disabled Clickable, `update` recomputes the state with
priority Clicked > Pressed > Hovered > Released, first match winning
(stated as exact characterizations of each outcome in terms of the polled
booleans); on a Disabled one, `update` performs no state evaluation; and
`disable()` forces `Disabled` from any state (including `Disabled` itself)
until re-enabled. -/
theorem c6_clickable_priority (s : ClickableState) (p : ClickPoll)
    (hs : s ≠ ClickableState.Disabled) :
    (Clickable.update s p = ClickableState.Clicked
      ↔ ((p.mouseJustUpLeft || p.touchIsClicked)
          && (p.mouseInArea || p.touchInArea)) = true)
    ∧ (Clickable.update s p = ClickableState.Pressed
      ↔ (!(p.mouseJustUpLeft || p.touchIsClicked)
          && (p.mouseDownLeft || p.touchIsDown)
          && (p.mouseInArea || p.touchInArea)) = true)
    ∧ (Clickable.update s p = ClickableState.Hovered
      ↔ (!(p.mouseJustUpLeft || p.touchIsClicked)
          && !(p.mouseDownLeft || p.touchIsDown)
          && (p.mouseInArea || p.touchInArea)) = true)
    ∧ (Clickable.update s p = ClickableState.Released
      ↔ (p.mouseInArea || p.touchInArea) = false)
    ∧ Clickable.update ClickableState.Disabled p = ClickableState.Disabled
    ∧ Clickable.disable s true = ClickableState.Disabled
    ∧ Clickable.disable ClickableState.Disabled true
        = ClickableState.Disabled := by
  rcases p with ⟨a, b, c, d, e, f⟩
  cases s
  · cases a <;> cases b <;> cases c <;> cases d <;> cases e <;> cases f <;> decide
  · cases a <;> cases b <;> cases c <;> cases d <;> cases e <;> cases f <;> decide
  · cases a <;> cases b <;> cases c <;> cases d <;> cases e <;> cases f <;> decide
  · cases a <;> cases b <;> cases c <;> cases d <;> cases e <;> cases f <;> decide
  · exact absurd rfl hs

/-- Witness for C6: the `Released` state under an all-true poll. -/
theorem c6_clickable_priority_witness :
    (ClickableState.Released ≠ ClickableState.Disabled)
    ∧ ((Clickable.update ClickableState.Released ⟨true, true, true, true, true, true⟩
          = ClickableState.Clicked
        ↔ (((true || true) && (true || true)) = true))
      ∧ (Clickable.update ClickableState.Released ⟨true, true, true, true, true, true⟩
          = ClickableState.Pressed
        ↔ ((!(true || true) && (true || true) && (true || true)) = true))
      ∧ (Clickable.update ClickableState.Released ⟨true, true, true, true, true, true⟩
          = ClickableState.Hovered
        ↔ ((!(true || true) && !(true || true) && (true || true)) = true))
      ∧ (Clickable.update ClickableState.Released ⟨true, true, true, true, true, true⟩
          = ClickableState.Released
        ↔ ((true || true) = false))
      ∧ Clickable.update ClickableState.Disabled ⟨true, true, true, true, true, true⟩
          = ClickableState.Disabled
      ∧ Clickable.disable ClickableState.Released true = ClickableState.Disabled
      ∧ Clickable.disable ClickableState.Disabled true = ClickableState.Disabled) :=
  ⟨by decide,
    c6_clickable_priority ClickableState.Released
      ⟨true, true, true, true, true, true⟩ (by decide)⟩

/-- C8: `unsubscribeFromUpdate` removes exactly the first occurrence (by
reference identity) of the callback: on a list `l1 ++ x :: l2` whose prefix
`l1` does not contain `x` it returns `l1 ++ l2` (any further occurrences
inside `l2` survive); on a list not containing the callback it returns the
list unchanged (the embedding is a total function, so no exception), making
repetition on an already-removed callback idempotent. -/
theorem c8_unsubscribe_first_only_and_idempotent
    (l1 l2 rest : List ℕ) (x : ℕ) (h1 : x ∉ l1) (h2 : x ∉ rest) :
    GameLoop.unsubscribeFromUpdate (l1 ++ x :: l2) x = l1 ++ l2
    ∧ GameLoop.unsubscribeFromUpdate rest x = rest
    ∧ GameLoop.unsubscribeFromUpdate (GameLoop.unsubscribeFromUpdate rest x) x
        = GameLoop.unsubscribeFromUpdate rest x := by
  refine ⟨unsubscribe_first_occurrence l1 l2 x h1, unsubscribe_of_not_mem rest x h2, ?_⟩
  rw [unsubscribe_of_not_mem rest x h2, unsubscribe_of_not_mem rest x h2]

/-- Witness for C8: removing `0` from `[1, 0, 2, 0]` keeps the second
occurrence, and removing it from `[3, 4]` is a no-op twice over. -/
theorem c8_unsubscribe_first_only_and_idempotent_witness :
    ((0 : ℕ) ∉ [1]) ∧ ((0 : ℕ) ∉ [3, 4])
    ∧ (GameLoop.unsubscribeFromUpdate ([1] ++ 0 :: [2, 0]) 0 = [1] ++ [2, 0]
      ∧ GameLoop.unsubscribeFromUpdate [3, 4] 0 = [3, 4]
      ∧ GameLoop.unsubscribeFromUpdate (GameLoop.unsubscribeFromUpdate [3, 4] 0) 0
          = GameLoop.unsubscribeFromUpdate [3, 4] 0) :=
  ⟨by decide, by decide,
    c8_unsubscribe_first_only_and_idempotent [1] [2, 0] [3, 4] 0
      (by decide) (by decide)⟩

/-- C4: in a frame of `GameLoop._loop` with an active scene, the trace of
actions is: the update subscribers in registration (list) order at
positions `0 .. n-1`, the scene update at position `n`, the canvas clear at
position `n + 1`, the scene draw at position `n + 2`, and nothing else —
so every update subscriber and the scene update strictly precede the
clear, which strictly precedes the scene draw (this two-phase variant has
no draw subscribers). -/
theorem c4_loop_updates_before_clear_before_draw
    (subs : List ℕ) (j : ℕ) (hj : j < subs.length) :
    (GameLoop.loopTrace subs true).length = subs.length + 3
    ∧ (GameLoop.loopTrace subs true)[j]? = some (LoopEvent.updateSub subs[j])
    ∧ (GameLoop.loopTrace subs true)[subs.length]? = some LoopEvent.sceneUpdate
    ∧ (GameLoop.loopTrace subs true)[subs.length + 1]? = some LoopEvent.clearScreen
    ∧ (GameLoop.loopTrace subs true)[subs.length + 2]? = some LoopEvent.sceneDraw := by
  have hassoc : GameLoop.loopTrace subs true
      = List.map LoopEvent.updateSub subs
        ++ ([LoopEvent.sceneUpdate]
          ++ ([LoopEvent.clearScreen] ++ [LoopEvent.sceneDraw])) := by
    simp [GameLoop.loopTrace]
  rw [hassoc]
  refine ⟨by simp, ?_, ?_, ?_, ?_⟩
  · rw [List.getElem?_append_left (by simpa using hj)]
    simp [List.getElem?_map, List.getElem?_eq_getElem, hj]
  · rw [List.getElem?_append_right (by simp)]
    simp
  · rw [List.getElem?_append_right (by simp)]
    simp
  · rw [List.getElem?_append_right (by simp)]
    simp

/-- Witness for C4: two subscribers, inspecting position 1. -/
theorem c4_loop_updates_before_clear_before_draw_witness :
    (1 < [4, 7].length)
    ∧ ((GameLoop.loopTrace [4, 7] true).length = [4, 7].length + 3
      ∧ (GameLoop.loopTrace [4, 7] true)[1]? = some (LoopEvent.updateSub 7)
      ∧ (GameLoop.loopTrace [4, 7] true)[[4, 7].length]?
          = some LoopEvent.sceneUpdate
      ∧ (GameLoop.loopTrace [4, 7] true)[[4, 7].length + 1]?
          = some LoopEvent.clearScreen
      ∧ (GameLoop.loopTrace [4, 7] true)[[4, 7].length + 2]?
          = some LoopEvent.sceneDraw) :=
  ⟨by decide, c4_loop_updates_before_clear_before_draw [4, 7] 1 (by decide)⟩

end RRow
